import Mathlib

/-!
Shallow embedding of the bcvcal browser extension's rate-synchronization core:
the rate fetcher (src/js/api.js), the calculator (src/js/calculator.js), the
conversion-history store (src/js/storage.js), the background synchronizer
(background.js) and the side-panel storage-change listener (sidepanel.js).

JavaScript numbers are modelled by an inductive type with NaN, the two signed
infinities and exact rationals for the finite values; the finite arithmetic is
idealized as exact (no rounding), while the NaN/infinity propagation rules of
IEEE-754 double arithmetic and of the JS comparison operators are modelled
faithfully, since the code's guards (`isNaN`, falsiness `!x`, `=== 0`) are
decided by exactly those rules.
-/

namespace BCV

/-- A JavaScript number: NaN, +Infinity, -Infinity, or a finite value
(idealized as an exact rational). -/
inductive JsNum where
  | nan : JsNum
  | posInf : JsNum
  | negInf : JsNum
  | fin : ℚ → JsNum
deriving DecidableEq, Repr

namespace JsNum

/-- The JS global `isNaN` on a number (true exactly for NaN). -/
def isNaN : JsNum → Bool
  | nan => true
  | _ => false

/-- JS `Number.isFinite`: true exactly for the finite values. -/
def isFinite : JsNum → Bool
  | fin _ => true
  | _ => false

/-- JS ToBoolean gives `false` (so `!x` is true) exactly for NaN and 0. -/
def falsy : JsNum → Bool
  | nan => true
  | fin q => q == 0
  | _ => false

/-- JS `*` on numbers: NaN is absorbing, an infinity times zero is NaN,
an infinity times a nonzero value is an infinity of the product sign,
finite times finite is the exact product. -/
def mul : JsNum → JsNum → JsNum
  | nan, _ => nan
  | _, nan => nan
  | posInf, posInf => posInf
  | posInf, negInf => negInf
  | negInf, posInf => negInf
  | negInf, negInf => posInf
  | posInf, fin q => if q = 0 then nan else if 0 < q then posInf else negInf
  | negInf, fin q => if q = 0 then nan else if 0 < q then negInf else posInf
  | fin q, posInf => if q = 0 then nan else if 0 < q then posInf else negInf
  | fin q, negInf => if q = 0 then nan else if 0 < q then negInf else posInf
  | fin a, fin b => fin (a * b)

/-- JS `/` on numbers: NaN is absorbing, infinity over infinity is NaN,
a finite value over an infinity is 0, a nonzero finite value over zero is a
signed infinity, 0/0 is NaN, and finite division is exact otherwise. -/
def div : JsNum → JsNum → JsNum
  | nan, _ => nan
  | _, nan => nan
  | posInf, posInf => nan
  | posInf, negInf => nan
  | negInf, posInf => nan
  | negInf, negInf => nan
  | posInf, fin q => if 0 ≤ q then posInf else negInf
  | negInf, fin q => if 0 ≤ q then negInf else posInf
  | fin _, posInf => fin 0
  | fin _, negInf => fin 0
  | fin a, fin b =>
      if b = 0 then (if a = 0 then nan else if 0 < a then posInf else negInf)
      else fin (a / b)

/-- JS `-` on numbers: NaN is absorbing, same-signed infinities subtract to
NaN, an infinity dominates a finite value, finite subtraction is exact. -/
def sub : JsNum → JsNum → JsNum
  | nan, _ => nan
  | _, nan => nan
  | posInf, posInf => nan
  | posInf, negInf => posInf
  | posInf, fin _ => posInf
  | negInf, negInf => nan
  | negInf, posInf => negInf
  | negInf, fin _ => negInf
  | fin _, posInf => negInf
  | fin _, negInf => posInf
  | fin a, fin b => fin (a - b)

/-- JS `>` on numbers: any comparison with NaN is false, +Infinity is above
everything else, -Infinity below everything else, finite values compare as
rationals. -/
def jsGt : JsNum → JsNum → Bool
  | nan, _ => false
  | _, nan => false
  | posInf, posInf => false
  | posInf, _ => true
  | negInf, _ => false
  | fin _, posInf => false
  | fin _, negInf => true
  | fin a, fin b => decide (b < a)

/-- JS `<` on numbers: any comparison with NaN is false, mirror of `jsGt`. -/
def jsLt : JsNum → JsNum → Bool
  | nan, _ => false
  | _, nan => false
  | negInf, negInf => false
  | negInf, _ => true
  | posInf, _ => false
  | fin _, negInf => false
  | fin _, posInf => true
  | fin a, fin b => decide (a < b)

end JsNum

/-! ## Calculator (src/js/calculator.js) -/

/-- Source: `convertUSDtoBs(amount, rate)` in src/js/calculator.js —
`if (!amount || isNaN(amount) || !rate || isNaN(rate)) return 0;
return amount * rate;`. -/
def convertUSDtoBs (amount rate : JsNum) : JsNum :=
  if amount.falsy || amount.isNaN || rate.falsy || rate.isNaN then JsNum.fin 0
  else amount.mul rate

/-- Source: `convertBstoUSD(amount, rate)` in src/js/calculator.js —
`if (!amount || isNaN(amount) || !rate || isNaN(rate) || rate === 0) return 0;
return amount / rate;`. -/
def convertBstoUSD (amount rate : JsNum) : JsNum :=
  if amount.falsy || amount.isNaN || rate.falsy || rate.isNaN
      || rate == JsNum.fin 0 then JsNum.fin 0
  else amount.div rate

/-- Result type of `getRateChangeType`. -/
inductive ChangeType where
  | increase : ChangeType
  | decrease : ChangeType
  | same : ChangeType
deriving DecidableEq, Repr

/-- Source: `getRateChangeType(currentRate, previousRate)` in
src/js/calculator.js — strict `>` / `<` comparison with a `same` fallback. -/
def getRateChangeType (currentRate previousRate : JsNum) : ChangeType :=
  if JsNum.jsGt currentRate previousRate then ChangeType.increase
  else if JsNum.jsLt currentRate previousRate then ChangeType.decrease
  else ChangeType.same

/-! ## Rate fetcher (src/js/api.js) -/

/-- The decoded JSON body of a rate-API response together with the HTTP
success flag. A `price` / `price_old` field that is present carries the
number `parseFloat` yields on it (NaN when the raw value does not parse);
`none` models the field being `undefined`. `fetch_date` is the optional
date string of the body. -/
structure ApiResponse where
  ok : Bool
  price : Option JsNum
  price_old : Option JsNum
  fetch_date : Option String
deriving DecidableEq, Repr

/-- The canonical rate record built by `fetchBCVRate` in src/js/api.js. -/
structure RateRecord where
  currentRate : JsNum
  previousRate : JsNum
  date : String
  change : JsNum
  changePercentage : JsNum
deriving DecidableEq, Repr

/-- Source: `fetchBCVRate()` in src/js/api.js. The network call is modelled
by its outcome: `none` when `fetch` itself rejects, `some r` when a response
arrived and decoded to `r`. `now` is the ISO string of the current time, the
fallback for an absent or empty `fetch_date`. Failure paths return the
thrown error's message. -/
def fetchBCVRate (resp : Option ApiResponse) (now : String) : Except String RateRecord :=
  match resp with
  | none => Except.error "Network request failed"
  | some r =>
    if !r.ok then Except.error "API error"
    else
      match r.price, r.price_old with
      | some currentPrice, some previousPrice =>
        if currentPrice.isNaN || previousPrice.isNaN then
          Except.error "Invalid number format for price data in API response."
        else
          Except.ok
            { currentRate := currentPrice
              previousRate := previousPrice
              date := match r.fetch_date with
                      | some d => if d = "" then now else d
                      | none => now
              change := currentPrice.sub previousPrice
              changePercentage :=
                if previousPrice ≠ JsNum.fin 0 then
                  ((currentPrice.sub previousPrice).div previousPrice).mul (JsNum.fin 100)
                else JsNum.fin 0 }
      | _, _ => Except.error "API response missing essential price data."

/-! ## Conversion history store (src/js/storage.js) -/

/-- Source: `MAX_HISTORY_ITEMS` in src/js/storage.js. -/
def MAX_HISTORY_ITEMS : Nat := 10

/-- The argument object of `addConversionToHistory`. A `fromAmount` /
`toAmount` of `none` models a field that is missing or not number-typed
(the `typeof x !== 'number'` guard); `some v` is a number-typed value,
NaN included. -/
structure ConversionInput where
  fromAmount : Option JsNum
  fromCurrency : String
  toAmount : Option JsNum
  toCurrency : String
  rate : JsNum
deriving DecidableEq, Repr

/-- A stored history item: the conversion's fields plus the timestamp
assigned at insertion. -/
structure ConversionItem where
  fromAmount : JsNum
  fromCurrency : String
  toAmount : JsNum
  toCurrency : String
  rate : JsNum
  timestamp : String
deriving DecidableEq, Repr

/-- The history item `addConversionToHistory` builds from a valid input:
`{ ...conversion, timestamp: new Date().toISOString() }`. On the guarded
fields the `getD` defaults are never reached for valid inputs. -/
def historyItemOf (c : ConversionInput) (now : String) : ConversionItem :=
  { fromAmount := c.fromAmount.getD JsNum.nan
    fromCurrency := c.fromCurrency
    toAmount := c.toAmount.getD JsNum.nan
    toCurrency := c.toCurrency
    rate := c.rate
    timestamp := now }

/-- Source: `getConversionHistory()` in src/js/storage.js — returns the
parsed stored list under the history key, or `[]` when the key is absent
(or unreadable). The localStorage slot is modelled as
`Option (List ConversionItem)`. -/
def getConversionHistory (s : Option (List ConversionItem)) : List ConversionItem :=
  s.getD []

/-- Source: `addConversionToHistory(conversion)` in src/js/storage.js.
Returns the new storage slot and the function's return value: on an absent
conversion object or a non-number `fromAmount` / `toAmount` it returns
without touching storage; otherwise it timestamps the item, inserts it at
the front, truncates to `MAX_HISTORY_ITEMS` and writes the list back. -/
def addConversionToHistory (now : String) (conv : Option ConversionInput)
    (s : Option (List ConversionItem)) :
    Option (List ConversionItem) × Option (List ConversionItem) :=
  match conv with
  | none => (s, none)
  | some c =>
    match c.fromAmount, c.toAmount with
    | some _, some _ =>
      let history := historyItemOf c now :: getConversionHistory s
      let truncated :=
        if history.length > MAX_HISTORY_ITEMS then history.take MAX_HISTORY_ITEMS
        else history
      (some truncated, some truncated)
    | _, _ => (s, none)

/-- Source: `clearConversionHistory()` in src/js/storage.js —
`localStorage.removeItem(HISTORY_KEY)`. -/
def clearConversionHistory (_s : Option (List ConversionItem)) :
    Option (List ConversionItem) :=
  none

/-- Iterated appends: folds `addConversionToHistory` over a list of
(conversion, timestamp) pairs, keeping the storage slot. -/
def appendMany (l : List (ConversionInput × String))
    (s : Option (List ConversionItem)) : Option (List ConversionItem) :=
  l.foldl (fun st p => (addConversionToHistory p.2 (some p.1) st).1) s

/-! ## Background synchronizer (background.js) -/

/-- Source: `RATE_DATA_KEY` — the one storage key of the rate cache, defined
identically in background.js, sidepanel.js and ui.js. -/
def RATE_DATA_KEY : String := "bcvRateData"

/-- Source: `REFRESH_INTERVAL_MINUTES` in background.js. -/
def REFRESH_INTERVAL_MINUTES : Int := 60

/-- A chrome alarm's configuration as created by background.js
(`delayInMinutes` optional, `periodInMinutes` set). -/
structure AlarmInfo where
  delayInMinutes : Option Nat
  periodInMinutes : Int
deriving DecidableEq, Repr

/-- The cache entry background.js stores under `RATE_DATA_KEY`: the fetched
rate record spread together with a `lastFetchedByBackground` timestamp.
Timestamps are modelled as milliseconds since the epoch (the code writes
`new Date().toISOString()` and reads it back with `new Date(...).getTime()`,
which round-trips to the same instant). -/
structure StoredRate where
  record : RateRecord
  lastFetchedByBackground : Int
deriving DecidableEq, Repr

/-- The background process's observable state: the `RATE_DATA_KEY` slot of
chrome.storage.local and the `fetchRateAlarm` alarm slot. -/
structure BgState where
  storage : Option StoredRate
  alarm : Option AlarmInfo
deriving DecidableEq, Repr

/-- A chrome.storage.onChanged notification as observed by a listener for a
single key: the storage area name, the key, and the new value. -/
structure ChangeEvent where
  area : String
  key : String
  newValue : Option StoredRate
deriving DecidableEq, Repr

/-- The change event a successful `chrome.storage.local.set` of `entry`
under `RATE_DATA_KEY` gives rise to. -/
def writeEvent (entry : StoredRate) : ChangeEvent :=
  { area := "local", key := RATE_DATA_KEY, newValue := some entry }

/-- Source: `fetchAndStoreRate()` in background.js, with the awaited
`fetchBCVRate()` call modelled by its outcome `f` and the current time by
`now`. A thrown fetch error is caught and logged (no state change); a
fulfilled result is stored only when `rateData.currentRate` is truthy, in
which case the alarm is re-created if missing (`periodInMinutes` only, no
delay). The second component lists the storage writes performed, i.e. the
change notifications produced. -/
def fetchAndStoreRate (f : Except String RateRecord) (now : Int)
    (s : BgState) : BgState × List ChangeEvent :=
  match f with
  | Except.error _ => (s, [])
  | Except.ok rateData =>
    if rateData.currentRate.falsy then (s, [])
    else
      let dataToStore : StoredRate := { record := rateData, lastFetchedByBackground := now }
      let alarm' := if s.alarm.isNone
        then some { delayInMinutes := none, periodInMinutes := REFRESH_INTERVAL_MINUTES }
        else s.alarm
      ({ storage := some dataToStore, alarm := alarm' }, [writeEvent dataToStore])

/-- Source: the `chrome.runtime.onStartup` listener in background.js. It
reads the cached entry: if absent, or if `now` minus its
`lastFetchedByBackground` exceeds the refresh interval in milliseconds, it
runs `fetchAndStoreRate`; otherwise it leaves the cache alone. It then
checks the alarm and recreates it (1-minute delay, 60-minute period) if it
is missing. -/
def onStartup (now : Int) (f : Except String RateRecord) (s : BgState) :
    BgState × List ChangeEvent :=
  let fetched :=
    match s.storage with
    | some stored =>
      if now - stored.lastFetchedByBackground > REFRESH_INTERVAL_MINUTES * 60 * 1000
      then fetchAndStoreRate f now s
      else (s, [])
    | none => fetchAndStoreRate f now s
  let s1 := fetched.1
  if s1.alarm.isNone then
    ({ s1 with alarm := some { delayInMinutes := some 1,
                               periodInMinutes := REFRESH_INTERVAL_MINUTES } }, fetched.2)
  else (s1, fetched.2)

/-! ## Side panel change listener (sidepanel.js) -/

/-- The side panel's in-memory `currentRateData` object: the rate payload it
last adopted (none before any data arrives) and its `isCachedData` flag. -/
structure SidePanelRateData where
  data : Option StoredRate
  isCachedData : Bool
deriving DecidableEq, Repr

/-- Source: `updateLocalRateData(rateData, isCached)` in sidepanel.js —
replaces `currentRateData` with the given payload and flag. -/
def updateLocalRateData (rateData : StoredRate) (isCached : Bool) :
    SidePanelRateData :=
  { data := some rateData, isCachedData := isCached }

/-- Source: the `chrome.storage.onChanged` listener in sidepanel.js —
reacts only to events for `RATE_DATA_KEY` in the `local` area, and only
when the new value is truthy, adopting it marked as cached. -/
def sidePanelOnChanged (ev : ChangeEvent) (st : SidePanelRateData) :
    SidePanelRateData :=
  if ev.area = "local" && ev.key = RATE_DATA_KEY then
    match ev.newValue with
    | some newStoredData => updateLocalRateData newStoredData true
    | none => st
  else st

/-- Modelled from the spec: the durable storage boundary's cross-process
change-notification delivery (the chrome.storage platform itself, absent
from src/): a successful write's change event is delivered to the
registered onChanged listener of every observing process, here a list of
independently-initialized side-panel processes. -/
def broadcast (ev : ChangeEvent) (procs : List SidePanelRateData) :
    List SidePanelRateData :=
  procs.map (sidePanelOnChanged ev)

/-! ## Concrete sample inputs (used to instantiate theorems) -/

/-- A concrete valid conversion. -/
def sampleConversion : ConversionInput :=
  { fromAmount := some (JsNum.fin 1), fromCurrency := "USD",
    toAmount := some (JsNum.fin 36), toCurrency := "Bs",
    rate := JsNum.fin 36 }

/-- Eleven timestamped copies of the sample conversion. -/
def sampleInputs : List (ConversionInput × String) :=
  List.replicate 11 (sampleConversion, "t")

/-- A concrete rate record with a truthy current rate. -/
def sampleRecord : RateRecord :=
  { currentRate := JsNum.fin 36, previousRate := JsNum.fin 35,
    date := "2024-01-01", change := JsNum.fin 1,
    changePercentage := JsNum.fin (100 / 35) }

/-- A concrete rate record whose current rate is the falsy value 0. -/
def sampleZeroRecord : RateRecord :=
  { currentRate := JsNum.fin 0, previousRate := JsNum.fin 35,
    date := "2024-01-01", change := JsNum.fin (-35),
    changePercentage := JsNum.fin (-100) }

/-! ## Helper lemmas -/

@[simp]
lemma JsNum.falsy_fin (q : ℚ) : JsNum.falsy (JsNum.fin q) = (q == 0) := rfl

@[simp]
lemma JsNum.falsy_nan : JsNum.falsy JsNum.nan = true := rfl

@[simp]
lemma JsNum.falsy_posInf : JsNum.falsy JsNum.posInf = false := rfl

@[simp]
lemma JsNum.isNaN_fin (q : ℚ) : JsNum.isNaN (JsNum.fin q) = false := rfl

@[simp]
lemma JsNum.isNaN_posInf : JsNum.isNaN JsNum.posInf = false := rfl

@[simp]
lemma JsNum.mul_fin_fin (a b : ℚ) :
    JsNum.mul (JsNum.fin a) (JsNum.fin b) = JsNum.fin (a * b) := rfl

@[simp]
lemma JsNum.sub_fin_fin (a b : ℚ) :
    JsNum.sub (JsNum.fin a) (JsNum.fin b) = JsNum.fin (a - b) := rfl

lemma JsNum.div_fin_fin (a b : ℚ) (hb : b ≠ 0) :
    JsNum.div (JsNum.fin a) (JsNum.fin b) = JsNum.fin (a / b) := by
  simp [JsNum.div, hb]

/-! ## Claim theorems: calculator -/

/-- C5 counterexample: the claim says a non-finite amount yields 0 in the
USD-to-VES direction, but `convertUSDtoBs(Infinity, 2)` evaluates to
`Infinity * 2 = Infinity`, not 0 — the guards test `isNaN` and falsiness,
not finiteness. -/
theorem convert_infinite_counterexample :
    convertUSDtoBs JsNum.posInf (JsNum.fin 2) = JsNum.posInf ∧
    convertUSDtoBs JsNum.posInf (JsNum.fin 2) ≠ JsNum.fin 0 ∧
    JsNum.isFinite JsNum.posInf = false := by
  refine ⟨?_, ?_, rfl⟩ <;>
    simp [convertUSDtoBs, JsNum.mul]

/-- C5 (amended): for finite amount and rate, `convertUSDtoBs` returns
`amount * rate` exactly and `convertBstoUSD` returns `amount / rate` with a
safe 0 for a zero rate; a NaN amount or rate yields 0 in both directions.
(Infinite non-NaN inputs are not guarded and flow into the arithmetic.) -/
theorem convert_finite_and_nan_spec (qa qr : ℚ) (a r : JsNum) :
    convertUSDtoBs (JsNum.fin qa) (JsNum.fin qr) = JsNum.fin (qa * qr) ∧
    convertBstoUSD (JsNum.fin qa) (JsNum.fin qr)
      = JsNum.fin (if qr = 0 then 0 else qa / qr) ∧
    convertUSDtoBs JsNum.nan r = JsNum.fin 0 ∧
    convertUSDtoBs a JsNum.nan = JsNum.fin 0 ∧
    convertBstoUSD JsNum.nan r = JsNum.fin 0 ∧
    convertBstoUSD a JsNum.nan = JsNum.fin 0 := by
  refine ⟨?_, ?_, ?_, ?_, ?_, ?_⟩
  · by_cases hqa : qa = 0
    · simp [convertUSDtoBs, hqa]
    · by_cases hqr : qr = 0
      · simp [convertUSDtoBs, hqr]
      · simp [convertUSDtoBs, hqa, hqr]
  · by_cases hqa : qa = 0
    · by_cases hqr : qr = 0 <;> simp [convertBstoUSD, hqa, hqr]
    · by_cases hqr : qr = 0
      · simp [convertBstoUSD, hqr]
      · simp [convertBstoUSD, hqa, hqr, JsNum.div_fin_fin _ _ hqr]
  · simp [convertUSDtoBs]
  · simp [convertUSDtoBs, JsNum.isNaN]
  · simp [convertBstoUSD]
  · simp [convertBstoUSD, JsNum.isNaN]

/-- C6: converting a positive amount USD-to-VES and back VES-to-USD with the
same positive rate returns the original amount (exactly, in the idealized
exact-arithmetic model, hence within floating-point tolerance). -/
theorem convert_roundtrip (qa qr : ℚ) (ha : 0 < qa) (hr : 0 < qr) :
    convertBstoUSD (convertUSDtoBs (JsNum.fin qa) (JsNum.fin qr))
      (JsNum.fin qr) = JsNum.fin qa := by
  have hqa : qa ≠ 0 := ne_of_gt ha
  have hqr : qr ≠ 0 := ne_of_gt hr
  have h1 : convertUSDtoBs (JsNum.fin qa) (JsNum.fin qr) = JsNum.fin (qa * qr) := by
    simp [convertUSDtoBs, hqa, hqr]
  rw [h1]
  have hprod : qa * qr ≠ 0 := mul_ne_zero hqa hqr
  rw [convertBstoUSD]
  simp only [JsNum.falsy_fin, JsNum.isNaN_fin, beq_iff_eq, hprod, hqr]
  simp [hprod, hqr, JsNum.div_fin_fin _ _ hqr, mul_div_assoc, div_self hqr]

/-- C6 witness: the round trip at amount 3 and rate 2. -/
theorem convert_roundtrip_witness :
    (0:ℚ) < 3 ∧ (0:ℚ) < 2 ∧
    convertBstoUSD (convertUSDtoBs (JsNum.fin 3) (JsNum.fin 2))
      (JsNum.fin 2) = JsNum.fin 3 :=
  ⟨by norm_num, by norm_num, convert_roundtrip 3 2 (by norm_num) (by norm_num)⟩

/-- C7 counterexample: the claim says any non-finite input yields `same`,
but `getRateChangeType(Infinity, 5)` evaluates to `increase` — only NaN
comparisons are false in JS; infinities compare normally. -/
theorem getRateChangeType_infinite_counterexample :
    getRateChangeType JsNum.posInf (JsNum.fin 5) = ChangeType.increase ∧
    JsNum.isFinite JsNum.posInf = false ∧
    ChangeType.increase ≠ ChangeType.same := by
  refine ⟨?_, rfl, by simp⟩
  simp [getRateChangeType, JsNum.jsGt]

/-- C7 (amended): `getRateChangeType(x, x) = same` for every finite x;
`increase` iff the JS comparison `x > y` holds and `decrease` iff `x < y`
(on finite values, exactly the rational order); a NaN input yields `same`
(NaN comparisons are false), while infinite non-NaN inputs compare
normally. -/
theorem getRateChangeType_spec (q a b : ℚ) (x y : JsNum) :
    getRateChangeType (JsNum.fin q) (JsNum.fin q) = ChangeType.same ∧
    (getRateChangeType x y = ChangeType.increase ↔ JsNum.jsGt x y = true) ∧
    (getRateChangeType x y = ChangeType.decrease ↔ JsNum.jsLt x y = true) ∧
    (getRateChangeType (JsNum.fin a) (JsNum.fin b) = ChangeType.increase ↔ b < a) ∧
    (getRateChangeType (JsNum.fin a) (JsNum.fin b) = ChangeType.decrease ↔ a < b) ∧
    getRateChangeType JsNum.nan y = ChangeType.same ∧
    getRateChangeType x JsNum.nan = ChangeType.same := by
  have hexcl : ∀ u v : JsNum, JsNum.jsGt u v = true → JsNum.jsLt u v = false := by
    intro u v
    cases u <;> cases v <;> simp [JsNum.jsLt, JsNum.jsGt]
    exact fun h => le_of_lt h
  refine ⟨?_, ?_, ?_, ?_, ?_, ?_, ?_⟩
  · simp [getRateChangeType, JsNum.jsGt, JsNum.jsLt, lt_irrefl]
  · rw [getRateChangeType]
    cases hgt : JsNum.jsGt x y
    · cases hlt : JsNum.jsLt x y <;> simp [hgt, hlt]
    · simp [hgt]
  · rw [getRateChangeType]
    cases hgt : JsNum.jsGt x y
    · cases hlt : JsNum.jsLt x y <;> simp [hgt, hlt]
    · have hlt := hexcl x y hgt
      simp [hgt, hlt]
  · rw [getRateChangeType]
    by_cases hba : b < a <;> by_cases hab : a < b
    · exact absurd (lt_trans hba hab) (lt_irrefl b)
    · simp [JsNum.jsGt, JsNum.jsLt, hba, hab]
    · simp [JsNum.jsGt, JsNum.jsLt, hba, hab]
    · simp [JsNum.jsGt, JsNum.jsLt, hba, hab]
  · rw [getRateChangeType]
    by_cases hba : b < a <;> by_cases hab : a < b
    · exact absurd (lt_trans hba hab) (lt_irrefl b)
    · simp [JsNum.jsGt, JsNum.jsLt, hba, hab]
    · simp [JsNum.jsGt, JsNum.jsLt, hba, hab]
    · simp [JsNum.jsGt, JsNum.jsLt, hba, hab]
  · cases y <;> simp [getRateChangeType, JsNum.jsGt, JsNum.jsLt]
  · cases x <;> simp [getRateChangeType, JsNum.jsGt, JsNum.jsLt]

/-! ## Claim theorems: rate fetcher -/

/-- C1: for every response with a successful status and present, finite
parses of `price` and `price_old`, `fetchBCVRate` returns a record whose
`change` is exactly `price - price_old` and whose `changePercentage` is
exactly `(price - price_old) / price_old * 100`, except 0 when
`price_old = 0`; `currentRate` and `previousRate` carry the parsed values. -/
theorem fetchBCVRate_derived_fields (qp qpo : ℚ) (fd : Option String) (now : String) :
    ∃ d, fetchBCVRate
        (some { ok := true, price := some (JsNum.fin qp),
                price_old := some (JsNum.fin qpo), fetch_date := fd }) now =
      Except.ok
        { currentRate := JsNum.fin qp
          previousRate := JsNum.fin qpo
          date := d
          change := JsNum.fin (qp - qpo)
          changePercentage :=
            JsNum.fin (if qpo = 0 then 0 else (qp - qpo) / qpo * 100) } := by
  refine ⟨match fd with | some d => if d = "" then now else d | none => now, ?_⟩
  rw [fetchBCVRate]
  by_cases hqpo : qpo = 0
  · subst hqpo
    simp [JsNum.sub, JsNum.div, JsNum.mul]
  · simp [hqpo, JsNum.sub, JsNum.div_fin_fin _ _ hqpo, JsNum.mul]

/-- C2 counterexample: the claim says `fetchBCVRate` fails when a price
field parses to a non-finite number, but a `price` parsing to `Infinity`
(e.g. the body string "Infinity", for which `parseFloat` yields `Infinity`,
which is not NaN) is accepted: the call succeeds and returns a record with
an infinite `currentRate`. -/
theorem fetchBCVRate_nonfinite_counterexample :
    fetchBCVRate
        (some { ok := true, price := some JsNum.posInf,
                price_old := some (JsNum.fin 36),
                fetch_date := some "2024-01-01" }) "now" =
      Except.ok
        { currentRate := JsNum.posInf
          previousRate := JsNum.fin 36
          date := "2024-01-01"
          change := JsNum.posInf
          changePercentage := JsNum.posInf } ∧
    JsNum.isFinite JsNum.posInf = false := by
  constructor
  · rw [fetchBCVRate]
    have hne : ("2024-01-01" : String) ≠ "" := by decide
    norm_num [JsNum.isNaN, JsNum.sub, JsNum.div, JsNum.mul, hne]
  · rfl

/-- C2 (amended): `fetchBCVRate` fails exactly when the network call does
not succeed, the response status is not success, the body lacks a `price`
or `price_old` field, or either field parses to NaN (not: to any non-finite
number — an infinite parse is accepted); in every other case it succeeds. -/
theorem fetchBCVRate_error_iff (resp : Option ApiResponse) (now : String) :
    (∃ e, fetchBCVRate resp now = Except.error e) ↔
      resp = none ∨
      ∃ r, resp = some r ∧
        (r.ok = false ∨ r.price = none ∨ r.price_old = none ∨
         (∃ p, r.price = some p ∧ p.isNaN = true) ∨
         (∃ po, r.price_old = some po ∧ po.isNaN = true)) := by
  cases resp with
  | none => simp [fetchBCVRate]
  | some r =>
    obtain ⟨ok, price, price_old, fd⟩ := r
    cases ok
    · simp [fetchBCVRate]
    · cases price with
      | none => simp [fetchBCVRate]
      | some p =>
        cases price_old with
        | none => simp [fetchBCVRate]
        | some po =>
          cases hp : p.isNaN
          · cases hpo : po.isNaN
            · simp [fetchBCVRate, hp, hpo]
            · simp [fetchBCVRate, hp, hpo]
          · simp [fetchBCVRate, hp]

/-! ## Claim theorems: conversion history -/

lemma take_append_take {α : Type} (A B : List α) (n : Nat) :
    (A ++ B.take n).take n = (A ++ B).take n := by
  rw [List.take_append_eq_append_take, List.take_append_eq_append_take,
      List.take_take, min_eq_left (Nat.sub_le n A.length)]

lemma addConversion_valid (now : String) (c : ConversionInput)
    (s : Option (List ConversionItem))
    (h1 : c.fromAmount.isSome = true) (h2 : c.toAmount.isSome = true) :
    (addConversionToHistory now (some c) s).1
      = some ((historyItemOf c now :: getConversionHistory s).take MAX_HISTORY_ITEMS) := by
  obtain ⟨fa, hfa⟩ := Option.isSome_iff_exists.mp h1
  obtain ⟨ta, hta⟩ := Option.isSome_iff_exists.mp h2
  rw [addConversionToHistory]
  rw [hfa, hta]
  by_cases hlen :
      (historyItemOf c now :: getConversionHistory s).length > MAX_HISTORY_ITEMS
  · simp [hlen]
  · simp [hlen, List.take_of_length_le (le_of_not_gt hlen)]

lemma appendMany_stored (l : List (ConversionInput × String))
    (s : Option (List ConversionItem))
    (hs : (getConversionHistory s).length ≤ MAX_HISTORY_ITEMS)
    (hl : ∀ p ∈ l, p.1.fromAmount.isSome = true ∧ p.1.toAmount.isSome = true) :
    getConversionHistory (appendMany l s)
      = ((l.map fun p => historyItemOf p.1 p.2).reverse
          ++ getConversionHistory s).take MAX_HISTORY_ITEMS := by
  induction l generalizing s with
  | nil =>
    simp [appendMany, List.take_of_length_le hs]
  | cons p rest ih =>
    have hp := hl p (List.mem_cons_self p rest)
    have hrest : ∀ q ∈ rest, q.1.fromAmount.isSome = true ∧ q.1.toAmount.isSome = true :=
      fun q hq => hl q (List.mem_cons_of_mem p hq)
    have hstep : appendMany (p :: rest) s
        = appendMany rest ((addConversionToHistory p.2 (some p.1) s).1) := rfl
    rw [hstep, addConversion_valid p.2 p.1 s hp.1 hp.2]
    have hs' : (getConversionHistory (some
        ((historyItemOf p.1 p.2 :: getConversionHistory s).take MAX_HISTORY_ITEMS))).length
        ≤ MAX_HISTORY_ITEMS := by
      simp [getConversionHistory]
    rw [ih _ hs' hrest]
    simp only [getConversionHistory, Option.getD_some, List.map_cons, List.reverse_cons]
    rw [take_append_take, List.append_assoc]
    simp

/-- C4: a valid append timestamps the item and inserts it at the front
(truncating to the 10 most recent); appending 11 valid items starting from
an empty store leaves exactly the 10 most recent items, newest first; and a
clear followed by a read returns the empty sequence. -/
theorem conversionHistory_spec (now : String) (c : ConversionInput)
    (s : Option (List ConversionItem)) (l : List (ConversionInput × String))
    (hc1 : c.fromAmount.isSome = true) (hc2 : c.toAmount.isSome = true)
    (hl : ∀ p ∈ l, p.1.fromAmount.isSome = true ∧ p.1.toAmount.isSome = true)
    (hlen : l.length = 11) :
    (addConversionToHistory now (some c) s).1
      = some ((historyItemOf c now :: getConversionHistory s).take MAX_HISTORY_ITEMS) ∧
    (historyItemOf c now).timestamp = now ∧
    getConversionHistory (appendMany l none)
      = ((l.map fun p => historyItemOf p.1 p.2).reverse).take MAX_HISTORY_ITEMS ∧
    (getConversionHistory (appendMany l none)).length = 10 ∧
    getConversionHistory (clearConversionHistory s) = [] := by
  have happ : getConversionHistory (appendMany l none)
      = ((l.map fun p => historyItemOf p.1 p.2).reverse).take MAX_HISTORY_ITEMS := by
    have := appendMany_stored l none (by simp [getConversionHistory]) hl
    simpa [getConversionHistory] using this
  refine ⟨addConversion_valid now c s hc1 hc2, rfl, happ, ?_, rfl⟩
  rw [happ]
  simp [List.length_take, hlen, MAX_HISTORY_ITEMS]

/-- C4 witness: eleven concrete appends to an empty store leave ten items,
and clearing yields the empty sequence. -/
theorem conversionHistory_spec_witness :
    sampleConversion.fromAmount.isSome = true ∧
    sampleInputs.length = 11 ∧
    (getConversionHistory (appendMany sampleInputs none)).length = 10 ∧
    getConversionHistory (clearConversionHistory none) = [] := by
  have h := conversionHistory_spec "t" sampleConversion none sampleInputs
    rfl rfl (by decide) (by decide)
  exact ⟨rfl, by decide, h.2.2.2.1, h.2.2.2.2⟩

/-- C10: `addConversionToHistory` with a missing conversion object, or one
whose `fromAmount` or `toAmount` is not number-typed, returns no value and
leaves the storage slot unchanged. -/
theorem addConversionToHistory_invalid_noop (now : String)
    (s : Option (List ConversionItem)) (c : ConversionInput) :
    addConversionToHistory now none s = (s, none) ∧
    addConversionToHistory now (some { c with fromAmount := none }) s = (s, none) ∧
    addConversionToHistory now (some { c with toAmount := none }) s = (s, none) := by
  refine ⟨rfl, ?_, ?_⟩
  · rw [addConversionToHistory]
  · rw [addConversionToHistory]
    cases hfa : c.fromAmount <;> simp [hfa]

/-! ## Claim theorems: background synchronizer -/

lemma fetchAndStoreRate_ok (r : RateRecord) (now : Int) (s : BgState)
    (hr : r.currentRate.falsy = false) :
    fetchAndStoreRate (Except.ok r) now s
      = ({ storage := some { record := r, lastFetchedByBackground := now },
           alarm := if s.alarm.isNone
             then some { delayInMinutes := none,
                         periodInMinutes := REFRESH_INTERVAL_MINUTES }
             else s.alarm },
         [writeEvent { record := r, lastFetchedByBackground := now }]) := by
  simp [fetchAndStoreRate, hr]

/-- C9: when the awaited fetch fulfills but the result's `currentRate` is
falsy (zero or NaN), `fetchAndStoreRate` performs no storage write and
produces no change notification: the whole background state is unchanged. -/
theorem fetchAndStoreRate_falsy_no_write (f : Except String RateRecord)
    (now : Int) (s : BgState) (r : RateRecord)
    (hf : f = Except.ok r) (hr : r.currentRate.falsy = true) :
    fetchAndStoreRate f now s = (s, []) := by
  subst hf
  simp [fetchAndStoreRate, hr]

/-- C9 witness: a successful fetch whose current rate is 0 leaves the state
untouched and emits no write. -/
theorem fetchAndStoreRate_falsy_no_write_witness :
    JsNum.falsy sampleZeroRecord.currentRate = true ∧
    fetchAndStoreRate (Except.ok sampleZeroRecord) 7
        { storage := none, alarm := none }
      = ({ storage := none, alarm := none }, []) :=
  ⟨by decide,
   fetchAndStoreRate_falsy_no_write (Except.ok sampleZeroRecord) 7
     { storage := none, alarm := none } sampleZeroRecord rfl (by decide)⟩

/-- C3: on startup, with a fetch that would succeed with a truthy rate, the
synchronizer stores a fresh entry exactly when the cached entry is absent
or older than the 60-minute refresh interval; with a fresh enough entry it
neither writes nor notifies; and in every case the recurring alarm ends up
set, untouched when it already existed. -/
theorem onStartup_reconciliation (now : Int) (f : Except String RateRecord)
    (r : RateRecord) (s : BgState)
    (hf : f = Except.ok r) (hr : r.currentRate.falsy = false) :
    ((s.storage = none ∨ ∃ st, s.storage = some st ∧
        now - st.lastFetchedByBackground > REFRESH_INTERVAL_MINUTES * 60 * 1000) →
      (onStartup now f s).1.storage
        = some { record := r, lastFetchedByBackground := now }) ∧
    ((∃ st, s.storage = some st ∧
        ¬(now - st.lastFetchedByBackground > REFRESH_INTERVAL_MINUTES * 60 * 1000)) →
      (onStartup now f s).1.storage = s.storage ∧ (onStartup now f s).2 = []) ∧
    (onStartup now f s).1.alarm.isSome = true ∧
    (s.alarm.isSome = true → (onStartup now f s).1.alarm = s.alarm) := by
  subst hf
  obtain ⟨sto, al⟩ := s
  refine ⟨?_, ?_, ?_, ?_⟩
  · rintro (hnone | ⟨st, hst, hstale⟩)
    · have hn : sto = none := hnone
      subst hn
      cases al <;> simp [onStartup, fetchAndStoreRate, hr]
    · have hs : sto = some st := hst
      subst hs
      cases al <;> simp [onStartup, fetchAndStoreRate, hr, hstale]
  · rintro ⟨st, hst, hfresh⟩
    have hs : sto = some st := hst
    subst hs
    cases al <;> simp [onStartup, fetchAndStoreRate, hr, hfresh]
  · cases sto with
    | none => cases al <;> simp [onStartup, fetchAndStoreRate, hr]
    | some st =>
      by_cases hstale : now - st.lastFetchedByBackground
          > REFRESH_INTERVAL_MINUTES * 60 * 1000 <;>
        cases al <;> simp [onStartup, fetchAndStoreRate, hr, hstale]
  · intro ha
    cases al with
    | none => simp at ha
    | some a =>
      cases sto with
      | none => simp [onStartup, fetchAndStoreRate, hr]
      | some st =>
        by_cases hstale : now - st.lastFetchedByBackground
            > REFRESH_INTERVAL_MINUTES * 60 * 1000 <;>
          simp [onStartup, fetchAndStoreRate, hr, hstale]

/-- C3 witness: a cache entry fetched 61 minutes ago triggers the immediate
refresh on startup, one fetched 10 minutes ago does not. -/
theorem onStartup_reconciliation_witness :
    ((3660000 : Int) - 0 > REFRESH_INTERVAL_MINUTES * 60 * 1000) ∧
    ¬((600000 : Int) - 0 > REFRESH_INTERVAL_MINUTES * 60 * 1000) ∧
    (onStartup 3660000 (Except.ok sampleRecord)
        { storage := some { record := sampleRecord, lastFetchedByBackground := 0 },
          alarm := some { delayInMinutes := some 1, periodInMinutes := 60 } }).1.storage
      = some { record := sampleRecord, lastFetchedByBackground := 3660000 } ∧
    (onStartup 600000 (Except.ok sampleRecord)
        { storage := some { record := sampleRecord, lastFetchedByBackground := 0 },
          alarm := some { delayInMinutes := some 1, periodInMinutes := 60 } }).1.storage
      = some { record := sampleRecord, lastFetchedByBackground := 0 } :=
  ⟨by decide, by decide,
   (onStartup_reconciliation 3660000 (Except.ok sampleRecord) sampleRecord
       { storage := some { record := sampleRecord, lastFetchedByBackground := 0 },
         alarm := some { delayInMinutes := some 1, periodInMinutes := 60 } }
       rfl (by decide)).1
     (Or.inr ⟨{ record := sampleRecord, lastFetchedByBackground := 0 }, rfl, by decide⟩),
   ((onStartup_reconciliation 600000 (Except.ok sampleRecord) sampleRecord
       { storage := some { record := sampleRecord, lastFetchedByBackground := 0 },
         alarm := some { delayInMinutes := some 1, periodInMinutes := 60 } }
       rfl (by decide)).2.1
     ⟨{ record := sampleRecord, lastFetchedByBackground := 0 }, rfl, by decide⟩).1⟩

/-- C8: a successful background store under the rate-data key produces
exactly one change event carrying the stored entry, and its delivery (per
the spec's storage-boundary contract) leaves every observing side-panel
process's handler holding the identical entry payload. -/
theorem crossProcess_cache_coherence (f : Except String RateRecord)
    (r : RateRecord) (now : Int) (s : BgState)
    (procs : List SidePanelRateData)
    (hf : f = Except.ok r) (hr : r.currentRate.falsy = false) :
    (fetchAndStoreRate f now s).2
      = [writeEvent { record := r, lastFetchedByBackground := now }] ∧
    broadcast (writeEvent { record := r, lastFetchedByBackground := now }) procs
      = procs.map (fun _ =>
          { data := some { record := r, lastFetchedByBackground := now },
            isCachedData := true }) := by
  subst hf
  constructor
  · rw [fetchAndStoreRate_ok r now s hr]
  · have h1 : ∀ st : SidePanelRateData,
        sidePanelOnChanged (writeEvent { record := r, lastFetchedByBackground := now }) st
          = { data := some { record := r, lastFetchedByBackground := now },
              isCachedData := true } := by
      intro st
      simp [sidePanelOnChanged, writeEvent, updateLocalRateData]
    rw [broadcast]
    exact List.map_congr_left (fun st _ => h1 st)

/-- C8 witness: one concrete write observed by one concrete side-panel
process. -/
theorem crossProcess_cache_coherence_witness :
    JsNum.falsy sampleRecord.currentRate = false ∧
    broadcast (writeEvent { record := sampleRecord, lastFetchedByBackground := 5 })
        [{ data := none, isCachedData := false }]
      = [{ data := some { record := sampleRecord, lastFetchedByBackground := 5 },
           isCachedData := true }] :=
  ⟨by decide,
   (crossProcess_cache_coherence (Except.ok sampleRecord) sampleRecord 5
       { storage := none, alarm := none }
       [{ data := none, isCachedData := false }] rfl (by decide)).2⟩

end BCV
